import Mathlib

/-!
Shallow embedding of the faceblur browser extension (repository
Vishal2002/faceblur) and proofs about its specification.

The repository contains two face-matching strategies:
* an embedding variant (src/src/faceRecognition.ts) comparing dense
  descriptor vectors by Euclidean distance, and
* a hash+landmark variant (src/unnamed/part_001) comparing a perceptual
  binary hash with a landmark-distance refinement.
The surrounding pipeline (src/src/content.ts) discovers images, drains a
work queue in bounded batches, tracks per-image lifecycle via membership
sets, and applies/removes a visual blur treatment.

Numbers are modelled over ℝ (exact reals in place of IEEE doubles); the
rational sub-computations that only involve integer division are modelled
over ℚ so they stay decidable.
-/

namespace FaceBlur

/-- Bounding box of a detection (the `box` shape in src/src/types.ts and
src/unnamed/part_002). -/
structure Box where
  xMin : ℝ
  yMin : ℝ
  width : ℝ
  height : ℝ

/-! ## Embedding-variant recognizer (src/src/faceRecognition.ts) -/

namespace FaceRec

/-- `FaceFingerprint` of the embedding variant (src/src/types.ts): a dense
descriptor vector plus bounding box and optional landmarks.  The descriptor
is modelled as an `Option` because `compareFaces` explicitly guards
`!fp1.descriptor || !fp2.descriptor` — at runtime a fingerprint object may
lack the field (null / undefined). -/
structure FaceFingerprint where
  descriptor : Option (List ℝ)
  box : Box
  landmarks : List (ℝ × ℝ)

/-- The comparison `faceapi.euclideanDistance(arr1, arr2) < t` on
equal-length vectors: the library computes the square root of the sum of
squared coordinate differences. -/
def euclideanDistanceLt (arr1 arr2 : List ℝ) (t : ℝ) : Prop :=
  Real.sqrt ((List.zipWith (fun a b => (a - b) ^ 2) arr1 arr2).sum) < t

/-- `compareFaces` from src/src/faceRecognition.ts lines 73–84: if either
descriptor is missing, warn and return false; otherwise compare the
Euclidean distance of the descriptors against the threshold (default 0.6 at
the call sites).  The length guard is modelled from the spec: the external
face-api.js `euclideanDistance` helper (line 80) is library code not under
src/, and per the spec a mismatched vector length is a contract error — the
library throws `euclideanDistance: arr1.length !== arr2.length` before any
distance is produced.  The result is `Except` because of that throw; the
success payload is the truth value of `distance < threshold`. -/
def compareFaces (fp1 fp2 : FaceFingerprint) (threshold : ℝ) : Except String Prop :=
  match fp1.descriptor, fp2.descriptor with
  | some d1, some d2 =>
      if d1.length = d2.length then
        Except.ok (euclideanDistanceLt d1 d2 threshold)
      else
        Except.error "euclideanDistance: arr1.length !== arr2.length"
  | _, _ => Except.ok False

/-- The comparison completed without an exception and its boolean result is
true. -/
def returnsTrue (r : Except String Prop) : Prop :=
  ∃ p, r = Except.ok p ∧ p

end FaceRec

/-! ## Hash+landmark-variant recognizer (src/unnamed/part_001) -/

namespace HashRec

/-- `FaceFingerprint` of the hash+landmark variant (src/unnamed/part_002):
box-normalized landmark coordinate pairs, a perceptual hash string of '0'
and '1' characters, and the bounding box. -/
structure FaceFingerprint where
  landmarks : List (List ℝ)
  hash : String
  boundingBox : Box

/-- `hammingDistance` from src/unnamed/part_001 lines 88–94: counts the
positions `i < a.length` where the characters of `a` and `b` differ.  An
index beyond `b`'s length reads `undefined` in the source, which compares
unequal to any character, exactly as `Option.none` does here. -/
def hammingDistance (a b : String) : ℕ :=
  ((List.range a.length).filter (fun i => a.data.get? i != b.data.get? i)).length

/-- The comparison `euclideanDistance(arr1, arr2) < t` with
`euclideanDistance` from src/unnamed/part_001 lines 97–103: sum of squared
differences over the indices of `arr1`, square root, divided by
`arr1.length` ("normalized").  Out-of-range reads of `arr2` are modelled as
0; the source would produce NaN there, so theorems only use this on lists
of equal length. -/
def euclideanDistanceLt (arr1 arr2 : List ℝ) (t : ℝ) : Prop :=
  Real.sqrt (((List.range arr1.length).map
    (fun i => (arr1.getD i 0 - arr2.getD i 0) ^ 2)).sum) / arr1.length < t

/-- `compareFaces` from src/unnamed/part_001 lines 55–74: identical hashes
match immediately; otherwise the Hamming distance normalized by
`fp1.hash.length * 4` is compared against the 0.3 gate, and only if the
gate is cleared are the flattened landmark lists compared against the
threshold (default 0.15 at the call sites).  The gate arithmetic is exact
rational arithmetic, matching the float computation on these operands. -/
def compareFaces (fp1 fp2 : FaceFingerprint) (threshold : ℝ) : Prop :=
  if fp1.hash = fp2.hash then True
  else if (hammingDistance fp1.hash fp2.hash : ℚ) / ((fp1.hash.length : ℚ) * 4) < 0.3 then
    euclideanDistanceLt fp1.landmarks.flatten fp2.landmarks.flatten threshold
  else False

/-- The spec's wording of the hash comparison, for refinement comparison
with `compareFaces`: the normalized Hamming distance is the number of
differing bits divided by the total number of bits, which for a binary
hash string is its length (not four times its length). -/
def compareFacesSpecGate (fp1 fp2 : FaceFingerprint) (threshold : ℝ) : Prop :=
  if fp1.hash = fp2.hash then True
  else if (hammingDistance fp1.hash fp2.hash : ℚ) / (fp1.hash.length : ℚ) < 0.3 then
    euclideanDistanceLt fp1.landmarks.flatten fp2.landmarks.flatten threshold
  else False

end HashRec

/-! ## Content pipeline (src/src/content.ts) -/

/-- `MIN_IMAGE_SIZE` from src/src/content.ts line 9. -/
def MIN_IMAGE_SIZE : ℕ := 100

/-- `MAX_CONCURRENT` from src/src/content.ts line 10. -/
def MAX_CONCURRENT : ℕ := 5

/-- Observable per-image state: intrinsic geometry/readiness plus the
lifecycle bookkeeping of content.ts — membership in `processedImages`, in
`failedImages`, and the `data-faceblur-blurred` marker. -/
structure ImageState where
  width : ℕ
  height : ℕ
  complete : Bool
  processed : Bool
  failed : Bool
  blurred : Bool
deriving DecidableEq, Inhabited

/-- The filter applied by `scanPage` (src/src/content.ts lines 54–60): not
already processed or failed, fully loaded, and both dimensions at least
`MIN_IMAGE_SIZE`. -/
def scanEligible (s : ImageState) : Bool :=
  !s.processed && !s.failed && s.complete &&
    decide (MIN_IMAGE_SIZE ≤ s.width) && decide (MIN_IMAGE_SIZE ≤ s.height)

/-- The queue produced by one `scanPage` pass over the indexed image list:
the indices of the eligible images, in document order. -/
def scanQueue (imgs : List ImageState) : List ℕ :=
  (List.range imgs.length).filter (fun i => scanEligible (imgs.getD i default))

/-- The per-image effect of the `updateReferences` branch of the message
listener (src/src/content.ts lines 277–282): every image carrying the
blurred marker is unblurred and deleted from both `processedImages` and
`failedImages`; all other images are untouched. -/
def resetIfBlurred (s : ImageState) : ImageState :=
  if s.blurred then { s with blurred := false, processed := false, failed := false } else s

/-- The `updateReferences` branch of the message listener
(src/src/content.ts lines 272–288): reset every currently-blurred image,
clear the pending queue, and, when enabled with a non-empty reference set,
run a `scanPage` pass to build the new queue.  Returns the new image states
and the new queue of indices. -/
def updateReferences (enabled refsNonempty : Bool) (imgs : List ImageState) :
    List ImageState × List ℕ :=
  let imgs2 := imgs.map resetIfBlurred
  (imgs2, if enabled && refsNonempty then scanQueue imgs2 else [])

/-- Iteration of the `processQueue` while loop (src/src/content.ts lines
77–94) with an explicit iteration bound: each pass splices the first
`MAX_CONCURRENT` entries off the queue.  Every pass on a non-empty queue
removes at least one element, so `fuel = q.length` bounds the iterations. -/
def drainGo : ℕ → List ℕ → List (List ℕ)
  | _, [] => []
  | 0, _ :: _ => []
  | fuel + 1, x :: rest =>
      ((x :: rest).take MAX_CONCURRENT) :: drainGo fuel ((x :: rest).drop MAX_CONCURRENT)

/-- The batch structure of the `processQueue` drain loop: a drain of queue
`q` processes exactly the batches `drainBatches q`, in order, each batch
awaited in full (`Promise.all`) before the next one starts. -/
def drainBatches (q : List ℕ) : List (List ℕ) :=
  drainGo q.length q

/-- Outcome of the external detection call as seen by
`detectFaces` (src/src/faceRecognition.ts lines 32–61): the underlying
library call either raises or returns a list of detections (abstracted to
their count). -/
inductive DetectRaw where
  | raises : DetectRaw
  | returns : List Unit → DetectRaw
deriving DecidableEq, Inhabited

/-- `detectFaces` from src/src/faceRecognition.ts lines 32–61: the
surrounding try/catch swallows a detection exception and returns the empty
list; otherwise the library's detections are returned. -/
def detectFaces : DetectRaw → List Unit
  | DetectRaw.raises => []
  | DetectRaw.returns ds => ds

/-- Environment of one `processImage` run: whether the CORS read-probe
canvas succeeds, the raw detection outcome, whether the
fingerprint/matching loop raises, and whether any detection matched any
reference. -/
structure ProcEnv where
  canvasOk : Bool
  rawDetect : DetectRaw
  matchRaises : Bool
  anyMatch : Bool
deriving DecidableEq, Inhabited

/-- `processImage` from src/src/content.ts lines 120–173: skip images
already processed or failed; an already-blurred image is recorded processed;
a failed read-probe moves the image to failed; zero detections (including a
swallowed detection exception) mark it processed and unblurred; an
exception in the matching loop is caught and moves it to failed; otherwise
the match verdict decides blurring and the image is processed.  The second
component is the resolved value (`none` for the source's `null`). -/
def processImage (s : ImageState) (e : ProcEnv) : ImageState × Option Bool :=
  if s.processed || s.failed then (s, none)
  else if s.blurred then ({ s with processed := true }, some true)
  else if !e.canvasOk then ({ s with failed := true }, none)
  else if (detectFaces e.rawDetect).isEmpty then ({ s with processed := true }, some false)
  else if e.matchRaises then ({ s with failed := true }, none)
  else if e.anyMatch then ({ s with processed := true, blurred := true }, some true)
  else ({ s with processed := true }, some false)

/-- One batch of the drain loop: `Promise.all(batch.map(processImage))` —
every item of the batch is processed, each from its own state and
environment, independent of the others' outcomes. -/
def processBatch (batch : List (ImageState × ProcEnv)) : List (ImageState × Option Bool) :=
  batch.map (fun p => processImage p.1 p.2)

/-- A full `scanPage` pass followed by draining the produced queue: images
passing the `scanPage` filter are run through `processImage`; images that do
not pass are never enqueued and keep their state unchanged. -/
def runScanPage (pairs : List (ImageState × ProcEnv)) : List ImageState :=
  pairs.map (fun p => if scanEligible p.1 then (processImage p.1 p.2).1 else p.1)

/-- Visible state of an image element as touched by
`blurImage`/`unblurImage` (src/src/content.ts lines 176–212): the
`data-faceblur-blurred` marker, the saved original filter, the inline style
fields, and the number of attached click-toggle handlers. -/
structure ImgElem where
  blurMarker : Bool
  savedFilter : Option String
  filter : String
  transition : String
  cursor : String
  title : String
  toggleHandlers : ℕ
deriving DecidableEq, Inhabited

/-- `blurImage` from src/src/content.ts lines 176–202: a no-op on an
element already carrying the blurred marker; otherwise it sets the marker,
saves the prior filter (empty string saved as "none"), applies the blur
styling, and attaches a click toggle.  The preceding `removeEventListener`
passes a freshly created closure, so it never removes anything and the
handler count simply increments. -/
def blurImage (e : ImgElem) : ImgElem :=
  if e.blurMarker then e
  else
    { blurMarker := true,
      savedFilter := some (if e.filter = "" then "none" else e.filter),
      filter := "blur(20px)",
      transition := "filter 0.3s ease",
      cursor := "pointer",
      title := "Click to temporarily unblur",
      toggleHandlers := e.toggleHandlers + 1 }

/-! ## Helper lemmas -/

/-- A successful comparison result is true exactly when its payload holds. -/
theorem returnsTrue_ok_iff (p : Prop) : FaceRec.returnsTrue (Except.ok p) ↔ p := by
  constructor
  · rintro ⟨q, hq, hqt⟩
    cases hq
    exact hqt
  · intro hp
    exact ⟨p, rfl, hp⟩

/-- The sum of squared differences of a vector with itself vanishes. -/
theorem zipWith_sub_sq_self (d : List ℝ) :
    (List.zipWith (fun a b => (a - b) ^ 2) d d).sum = 0 := by
  induction d with
  | nil => simp
  | cons x xs ih => simp [ih]

/-- `getD` commutes with `map` at in-range indices. -/
theorem getD_map_of_lt {α β : Type} [Inhabited α] [Inhabited β]
    (f : α → β) (l : List α) (i : ℕ) (hi : i < l.length) :
    (l.map f).getD i default = f (l.getD i default) := by
  induction l generalizing i with
  | nil => simp at hi
  | cons x xs ih =>
      cases i with
      | zero => rfl
      | succ n => simpa using ih n (by simpa using hi)

/-- Multiplicity of an index in a filtered range: one when the index is in
range and passes the filter, zero otherwise. -/
theorem count_filter_range (p : ℕ → Bool) (n i : ℕ) :
    (((List.range n).filter p).count i) = if i < n ∧ p i = true then 1 else 0 := by
  by_cases h : i < n ∧ p i = true
  · rw [if_pos h]
    exact List.count_eq_one_of_mem ((List.nodup_range n).filter p)
      (List.mem_filter.mpr ⟨List.mem_range.mpr h.1, h.2⟩)
  · rw [if_neg h]
    refine List.count_eq_zero.mpr (fun hmem => h ?_)
    have := List.mem_filter.mp hmem
    exact ⟨List.mem_range.mp this.1, this.2⟩

/-! ## Claim theorems -/

/-- Claim C3: for embedding-variant fingerprints whose descriptor vectors
are present and of equal length, `compareFaces` succeeds and returns true
exactly when the Euclidean distance of the vectors is strictly below the
0.6 threshold; in particular identical vectors compare as true. -/
theorem compareFaces_embedding_euclidean (fp1 fp2 : FaceRec.FaceFingerprint)
    (d1 d2 : List ℝ) (h1 : fp1.descriptor = some d1) (h2 : fp2.descriptor = some d2)
    (hlen : d1.length = d2.length) :
    (FaceRec.returnsTrue (FaceRec.compareFaces fp1 fp2 0.6) ↔
      FaceRec.euclideanDistanceLt d1 d2 0.6)
    ∧ (d1 = d2 → FaceRec.returnsTrue (FaceRec.compareFaces fp1 fp2 0.6)) := by
  have hc : FaceRec.compareFaces fp1 fp2 0.6 =
      Except.ok (FaceRec.euclideanDistanceLt d1 d2 0.6) := by
    simp [FaceRec.compareFaces, h1, h2, hlen]
  refine ⟨by rw [hc]; exact returnsTrue_ok_iff _, ?_⟩
  intro hd
  rw [hc, returnsTrue_ok_iff]
  subst hd
  unfold FaceRec.euclideanDistanceLt
  rw [zipWith_sub_sq_self, Real.sqrt_zero]
  norm_num

/-- Witness for C3 at the concrete identical descriptors `[1, 2]`. -/
theorem compareFaces_embedding_euclidean_witness :
    FaceRec.returnsTrue (FaceRec.compareFaces
      ⟨some [1, 2], ⟨0, 0, 0, 0⟩, []⟩ ⟨some [1, 2], ⟨0, 0, 0, 0⟩, []⟩ 0.6) :=
  (compareFaces_embedding_euclidean _ _ [1, 2] [1, 2] rfl rfl rfl).2 rfl

/-- Claim C4: for embedding-variant fingerprints whose descriptor vectors
have mismatched lengths, `compareFaces` fails with the library's contract
error and never produces a boolean result. -/
theorem compareFaces_length_mismatch_error (fp1 fp2 : FaceRec.FaceFingerprint)
    (d1 d2 : List ℝ) (h1 : fp1.descriptor = some d1) (h2 : fp2.descriptor = some d2)
    (hne : d1.length ≠ d2.length) (t : ℝ) :
    FaceRec.compareFaces fp1 fp2 t =
      Except.error "euclideanDistance: arr1.length !== arr2.length"
    ∧ ∀ p : Prop, FaceRec.compareFaces fp1 fp2 t ≠ Except.ok p := by
  have hc : FaceRec.compareFaces fp1 fp2 t =
      Except.error "euclideanDistance: arr1.length !== arr2.length" := by
    simp [FaceRec.compareFaces, h1, h2, hne]
  refine ⟨hc, fun p hp => ?_⟩
  rw [hc] at hp
  exact Except.noConfusion hp

/-- Witness for C4 at concrete descriptors of lengths 1 and 2. -/
theorem compareFaces_length_mismatch_error_witness :
    FaceRec.compareFaces ⟨some [0], ⟨0, 0, 0, 0⟩, []⟩ ⟨some [0, 1], ⟨0, 0, 0, 0⟩, []⟩ 0.6 =
      Except.error "euclideanDistance: arr1.length !== arr2.length" :=
  (compareFaces_length_mismatch_error _ _ [0] [0, 1] rfl rfl (by simp) 0.6).1

/-- Claim C10: if either embedding-variant fingerprint lacks a descriptor,
`compareFaces` returns false without raising any error. -/
theorem compareFaces_missing_descriptor (fp1 fp2 : FaceRec.FaceFingerprint) (t : ℝ)
    (h : fp1.descriptor = none ∨ fp2.descriptor = none) :
    FaceRec.compareFaces fp1 fp2 t = Except.ok False := by
  unfold FaceRec.compareFaces
  rcases hd1 : fp1.descriptor with _ | d1 <;> rcases hd2 : fp2.descriptor with _ | d2
  · rfl
  · rfl
  · rfl
  · exfalso
    rcases h with h | h
    · rw [hd1] at h
      exact Option.noConfusion h
    · rw [hd2] at h
      exact Option.noConfusion h

/-- Witness for C10 at a concrete fingerprint with a missing descriptor. -/
theorem compareFaces_missing_descriptor_witness :
    FaceRec.compareFaces ⟨none, ⟨0, 0, 0, 0⟩, []⟩ ⟨some [1], ⟨0, 0, 0, 0⟩, []⟩ 0.6 =
      Except.ok False :=
  compareFaces_missing_descriptor _ _ 0.6 (Or.inl rfl)

/-- Claim C6: hash-variant fingerprints with bit-identical hash strings
compare as a match immediately, for any threshold and any landmark
contents. -/
theorem compareFaces_hash_fastpath (fp1 fp2 : HashRec.FaceFingerprint) (t : ℝ)
    (h : fp1.hash = fp2.hash) : HashRec.compareFaces fp1 fp2 t := by
  unfold HashRec.compareFaces
  rw [if_pos h]
  trivial

/-- Witness for C6 at concrete fingerprints with equal hashes but different
landmark lists. -/
theorem compareFaces_hash_fastpath_witness :
    HashRec.compareFaces ⟨[[0, 0]], "11", ⟨0, 0, 0, 0⟩⟩ ⟨[[5, 5]], "11", ⟨0, 0, 0, 0⟩⟩ 0.15 :=
  compareFaces_hash_fastpath _ _ 0.15 rfl

/-- Counterexample to C5 as stated: two realistic 64-bit hashes differing in
32 of their 64 bits.  The spec's normalized Hamming distance (differing bits
/ total bits) is 0.5, which does not clear the 0.3 gate, so the claim
declares no match; the code divides by `hash.length * 4 = 256`, obtains
0.125, clears the gate, and the identical landmark lists then make it
declare a match. -/
theorem compareFaces_hash_gate_counterexample :
    HashRec.compareFaces
      ⟨[[0, 0]], "1111111111111111111111111111111100000000000000000000000000000000", ⟨0, 0, 0, 0⟩⟩
      ⟨[[0, 0]], "0000000000000000000000000000000000000000000000000000000000000000", ⟨0, 0, 0, 0⟩⟩
      0.15
    ∧ ¬ HashRec.compareFacesSpecGate
      ⟨[[0, 0]], "1111111111111111111111111111111100000000000000000000000000000000", ⟨0, 0, 0, 0⟩⟩
      ⟨[[0, 0]], "0000000000000000000000000000000000000000000000000000000000000000", ⟨0, 0, 0, 0⟩⟩
      0.15 := by
  have hham : HashRec.hammingDistance
      "1111111111111111111111111111111100000000000000000000000000000000"
      "0000000000000000000000000000000000000000000000000000000000000000" = 32 := by decide
  have hlen : ("1111111111111111111111111111111100000000000000000000000000000000" : String).length
      = 64 := by decide
  constructor
  · unfold HashRec.compareFaces
    rw [if_neg (by decide), if_pos (by rw [hham, hlen]; norm_num)]
    unfold HashRec.euclideanDistanceLt
    norm_num [List.flatten, List.range_succ, Real.sqrt_zero]
  · unfold HashRec.compareFacesSpecGate
    rw [if_neg (by decide), if_neg (by rw [hham, hlen]; norm_num)]
    exact not_false

/-- Claim C5 (amended): with non-identical, non-empty hashes the code
normalizes the Hamming distance by `hash.length * 4`; since at most
`hash.length` positions can differ, that value is at most 0.25 and always
clears the 0.3 gate, so the comparison is decided exactly by the refined
landmark check against the 0.15 threshold. -/
theorem compareFaces_hash_refined (fp1 fp2 : HashRec.FaceFingerprint)
    (hne : fp1.hash ≠ fp2.hash) (hpos : 0 < fp1.hash.length) :
    ((HashRec.hammingDistance fp1.hash fp2.hash : ℚ) / ((fp1.hash.length : ℚ) * 4) < 0.3)
    ∧ (HashRec.compareFaces fp1 fp2 0.15 ↔
        HashRec.euclideanDistanceLt fp1.landmarks.flatten fp2.landmarks.flatten 0.15) := by
  have hham : HashRec.hammingDistance fp1.hash fp2.hash ≤ fp1.hash.length := by
    unfold HashRec.hammingDistance
    calc ((List.range fp1.hash.length).filter
            (fun i => fp1.hash.data.get? i != fp2.hash.data.get? i)).length
        ≤ (List.range fp1.hash.length).length := List.length_filter_le _ _
      _ = fp1.hash.length := List.length_range _
  have hlpos : (0 : ℚ) < (fp1.hash.length : ℚ) := by exact_mod_cast hpos
  have hgate : (HashRec.hammingDistance fp1.hash fp2.hash : ℚ) /
      ((fp1.hash.length : ℚ) * 4) < 0.3 := by
    rw [div_lt_iff₀ (by linarith)]
    have h1 : (HashRec.hammingDistance fp1.hash fp2.hash : ℚ) ≤ (fp1.hash.length : ℚ) := by
      exact_mod_cast hham
    linarith
  refine ⟨hgate, ?_⟩
  unfold HashRec.compareFaces
  rw [if_neg hne, if_pos hgate]

/-- Witness for C5 (amended) at concrete two-bit hashes "10" and "00". -/
theorem compareFaces_hash_refined_witness :
    HashRec.compareFaces ⟨[[0, 0]], "10", ⟨0, 0, 0, 0⟩⟩ ⟨[[0, 0]], "00", ⟨0, 0, 0, 0⟩⟩ 0.15 ↔
      HashRec.euclideanDistanceLt ([[(0 : ℝ), 0]].flatten) ([[(0 : ℝ), 0]].flatten) 0.15 :=
  (compareFaces_hash_refined ⟨[[0, 0]], "10", ⟨0, 0, 0, 0⟩⟩ ⟨[[0, 0]], "00", ⟨0, 0, 0, 0⟩⟩
    (by decide) (by decide)).2

/-- Every batch produced by the drain iteration is no longer than
`MAX_CONCURRENT`, for any fuel. -/
theorem drainGo_length_le (fuel : ℕ) : ∀ q : List ℕ, ∀ b ∈ drainGo fuel q,
    b.length ≤ MAX_CONCURRENT := by
  induction fuel with
  | zero =>
      intro q b hb
      cases q with
      | nil => simp [drainGo] at hb
      | cons x rest => simp [drainGo] at hb
  | succ f ih =>
      intro q b hb
      cases q with
      | nil => simp [drainGo] at hb
      | cons x rest =>
          rw [drainGo] at hb
          rcases List.mem_cons.mp hb with h | h
          · subst h
            rw [List.length_take]
            exact min_le_left _ _
          · exact ih _ b h

/-- With enough fuel the drain iteration consumes the whole queue: the
batches concatenate back to the queue. -/
theorem drainGo_flatten (fuel : ℕ) : ∀ q : List ℕ, q.length ≤ fuel →
    (drainGo fuel q).flatten = q := by
  induction fuel with
  | zero =>
      intro q hq
      cases q with
      | nil => rfl
      | cons x rest => simp at hq
  | succ f ih =>
      intro q hq
      cases q with
      | nil => rfl
      | cons x rest =>
          rw [drainGo]
          rw [List.flatten_cons, ih _ (by simp [MAX_CONCURRENT] at hq ⊢; omega),
            List.take_append_drop]

/-- Claim C2: the drain loop of the Scheduler processes the queue in
successive batches, each of size at most `MAX_CONCURRENT`; the batches are
disjoint slices that concatenate back to the queue, so no item is in flight
outside its batch, a batch is awaited in full (`Promise.all`) before the
next starts, and at no suspension point are more than `MAX_CONCURRENT`
items in the processing state. -/
theorem scheduler_batch_bound (q b : List ℕ) (hb : b ∈ drainBatches q) :
    b.length ≤ MAX_CONCURRENT ∧ (drainBatches q).flatten = q :=
  ⟨drainGo_length_le _ _ b hb, drainGo_flatten _ _ le_rfl⟩

/-- Witness for C2 at a concrete seven-element queue whose first batch has
five elements. -/
theorem scheduler_batch_bound_witness :
    ([1, 2, 3, 4, 5] : List ℕ).length ≤ MAX_CONCURRENT ∧
      (drainBatches [1, 2, 3, 4, 5, 6, 7]).flatten = [1, 2, 3, 4, 5, 6, 7] :=
  scheduler_batch_bound [1, 2, 3, 4, 5, 6, 7] [1, 2, 3, 4, 5] (by decide)

/-- Counterexample to C1 as stated: a single image that is processed but
not currently suppressed.  Handling `updateReferences` (enabled, non-empty
new reference set) leaves it in `processedImages`, so the new scan queue is
empty — the previously-processed image is not requeued. -/
theorem updateReferences_counterexample :
    (updateReferences true true [⟨200, 200, true, true, false, false⟩]).2 = [] ∧
    ((updateReferences true true [⟨200, 200, true, true, false, false⟩]).1.getD 0
      default).processed = true := by
  decide

/-- Claim C1 (amended): handling `updateReferences` removes the suppression
marker from every currently-suppressed image and resets its processed and
failed membership, and (when enabled with a non-empty reference set and the
image is loaded and meets the size threshold) requeues it exactly once;
a previously-processed image that is not currently suppressed stays
processed and is not requeued. -/
theorem updateReferences_requeues_suppressed (imgs : List ImageState) (i : ℕ)
    (hi : i < imgs.length) :
    ((imgs.getD i default).blurred = true →
        ((updateReferences true true imgs).1.getD i default).blurred = false ∧
        ((updateReferences true true imgs).1.getD i default).processed = false ∧
        ((updateReferences true true imgs).1.getD i default).failed = false ∧
        ((imgs.getD i default).complete = true →
          MIN_IMAGE_SIZE ≤ (imgs.getD i default).width →
          MIN_IMAGE_SIZE ≤ (imgs.getD i default).height →
          (updateReferences true true imgs).2.count i = 1))
    ∧ ((imgs.getD i default).blurred = false → (imgs.getD i default).processed = true →
        ((updateReferences true true imgs).1.getD i default).processed = true ∧
        (updateReferences true true imgs).2.count i = 0) := by
  have hur : updateReferences true true imgs =
      (imgs.map resetIfBlurred, scanQueue (imgs.map resetIfBlurred)) := by
    simp [updateReferences]
  have hget : (imgs.map resetIfBlurred).getD i default =
      resetIfBlurred (imgs.getD i default) := getD_map_of_lt _ _ _ hi
  have hcount : (scanQueue (imgs.map resetIfBlurred)).count i =
      if i < imgs.length ∧ scanEligible (resetIfBlurred (imgs.getD i default)) = true
      then 1 else 0 := by
    unfold scanQueue
    rw [count_filter_range, List.length_map, hget]
  constructor
  · intro hb
    have hrb : resetIfBlurred (imgs.getD i default) =
        { imgs.getD i default with blurred := false, processed := false, failed := false } := by
      unfold resetIfBlurred
      rw [if_pos hb]
    rw [hur]
    refine ⟨by rw [hget, hrb], by rw [hget, hrb], by rw [hget, hrb], ?_⟩
    intro hc hw hh
    rw [hcount, if_pos]
    refine ⟨hi, ?_⟩
    rw [hrb]
    unfold scanEligible
    simp only [Bool.and_eq_true, Bool.not_eq_true', decide_eq_true_eq]
    exact ⟨⟨⟨⟨trivial, trivial⟩, hc⟩, hw⟩, hh⟩
  · intro hb hp
    have hrb : resetIfBlurred (imgs.getD i default) = imgs.getD i default := by
      unfold resetIfBlurred
      rw [if_neg (by rw [hb]; exact Bool.false_ne_true)]
    rw [hur]
    refine ⟨by rw [hget, hrb]; exact hp, ?_⟩
    rw [hcount, if_neg]
    rintro ⟨-, hel⟩
    rw [hrb] at hel
    unfold scanEligible at hel
    simp only [Bool.and_eq_true, Bool.not_eq_true', decide_eq_true_eq] at hel
    have h2 := hel.1.1.1.1
    rw [hp] at h2
    exact Bool.noConfusion h2

/-- Witness for C1 (amended) at a single currently-suppressed image: it is
unsuppressed, reset, and requeued exactly once. -/
theorem updateReferences_requeues_suppressed_witness :
    ((updateReferences true true [⟨200, 200, true, true, false, true⟩]).1.getD 0
      default).blurred = false ∧
    (updateReferences true true [⟨200, 200, true, true, false, true⟩]).2.count 0 = 1 := by
  have h := updateReferences_requeues_suppressed [⟨200, 200, true, true, false, true⟩] 0
    (by decide)
  have h1 := h.1 (by decide)
  exact ⟨h1.1, h1.2.2.2 (by decide) (by decide) (by decide)⟩

/-- Counterexample to C7 as stated: a fresh, readable image whose detection
call raises.  `detectFaces` swallows the exception and returns the empty
list, so `processImage` marks the image processed (resolving
`blurred = false`) instead of failed. -/
theorem processImage_detection_exception_counterexample :
    (processImage ⟨200, 200, true, false, false, false⟩
      ⟨true, DetectRaw.raises, false, false⟩).1.processed = true ∧
    (processImage ⟨200, 200, true, false, false, false⟩
      ⟨true, DetectRaw.raises, false, false⟩).1.failed = false := by
  decide

/-- Claim C7 (amended): an exception raised while fingerprinting/matching a
detected face is caught per item — the image moves to failed (not
processed) and the call resolves instead of propagating; an exception
raised inside the detection call is caught by the detection wrapper, which
returns no detections, so the image ends processed and unsuppressed; and in
either case every other item of the batch is still processed from its own
state and environment. -/
theorem processImage_exception_to_failed (s : ImageState) (e : ProcEnv)
    (hp : s.processed = false) (hf : s.failed = false) (hb : s.blurred = false)
    (hc : e.canvasOk = true) :
    (e.matchRaises = true → (detectFaces e.rawDetect).isEmpty = false →
      (processImage s e).1.failed = true ∧ (processImage s e).1.processed = false ∧
      (processImage s e).2 = none)
    ∧ (e.rawDetect = DetectRaw.raises →
      (processImage s e).1.processed = true ∧ (processImage s e).1.failed = false ∧
      (processImage s e).2 = some false)
    ∧ (∀ batch : List (ImageState × ProcEnv), ∀ j : ℕ, j < batch.length →
      (processBatch batch).getD j default =
        processImage (batch.getD j default).1 (batch.getD j default).2) := by
  refine ⟨?_, ?_, ?_⟩
  · intro hm hd
    simp [processImage, hp, hf, hb, hc, hm, hd]
  · intro hr
    simp [processImage, hp, hf, hb, hc, hr, detectFaces]
  · intro batch j hj
    exact getD_map_of_lt _ _ _ hj

/-- Witness for C7 (amended) at a concrete image whose matching raises. -/
theorem processImage_exception_to_failed_witness :
    (processImage ⟨200, 200, true, false, false, false⟩
      ⟨true, DetectRaw.returns [()], true, false⟩).1.failed = true ∧
    (processImage ⟨200, 200, true, false, false, false⟩
      ⟨true, DetectRaw.returns [()], true, false⟩).1.processed = false ∧
    (processImage ⟨200, 200, true, false, false, false⟩
      ⟨true, DetectRaw.returns [()], true, false⟩).2 = none :=
  (processImage_exception_to_failed ⟨200, 200, true, false, false, false⟩
    ⟨true, DetectRaw.returns [()], true, false⟩ rfl rfl rfl rfl).1 rfl rfl

/-- Counterexample to C8 as stated: a 50×50 image.  A scan pass leaves it
completely untracked — in particular it does **not** end in the processed
state (`processedImages` membership stays false), and the queue built from
the page is empty. -/
theorem small_image_counterexample :
    ((runScanPage [(⟨50, 50, true, false, false, false⟩,
      ⟨true, DetectRaw.returns [()], false, false⟩)]).getD 0 default).processed = false ∧
    scanQueue [⟨50, 50, true, false, false, false⟩] = [] := by
  decide

/-- Claim C8 (amended): an image below the minimum size threshold is never
enqueued by a scan pass and its state is left untouched by the scan — it
never enters processing, never becomes failed or suppressed, but it is not
marked processed either (it stays untracked and is re-filtered on later
scans). -/
theorem small_image_untouched (pairs : List (ImageState × ProcEnv)) (i : ℕ)
    (hi : i < pairs.length)
    (hsmall : (pairs.getD i default).1.width < MIN_IMAGE_SIZE ∨
      (pairs.getD i default).1.height < MIN_IMAGE_SIZE) :
    i ∉ scanQueue (pairs.map Prod.fst) ∧
    (runScanPage pairs).getD i default = (pairs.getD i default).1 := by
  have hel : scanEligible (pairs.getD i default).1 = false := by
    unfold scanEligible
    rcases hsmall with h | h
    · have hd : decide (MIN_IMAGE_SIZE ≤ (pairs.getD i default).1.width) = false :=
        decide_eq_false (by omega)
      rw [hd]
      simp
    · have hd : decide (MIN_IMAGE_SIZE ≤ (pairs.getD i default).1.height) = false :=
        decide_eq_false (by omega)
      rw [hd]
      simp
  constructor
  · intro hmem
    unfold scanQueue at hmem
    have hm := (List.mem_filter.mp hmem).2
    rw [getD_map_of_lt _ _ _ hi, hel] at hm
    exact Bool.false_ne_true hm
  · unfold runScanPage
    rw [getD_map_of_lt _ _ _ hi]
    rw [hel]
    exact if_neg Bool.false_ne_true

/-- Witness for C8 (amended) at a concrete 50×50 image. -/
theorem small_image_untouched_witness :
    (0 : ℕ) ∉ scanQueue ([((⟨50, 50, true, false, false, false⟩ : ImageState),
      (⟨true, DetectRaw.returns [], false, false⟩ : ProcEnv))].map Prod.fst) ∧
    (runScanPage [((⟨50, 50, true, false, false, false⟩ : ImageState),
      (⟨true, DetectRaw.returns [], false, false⟩ : ProcEnv))]).getD 0 default =
      (⟨50, 50, true, false, false, false⟩ : ImageState) :=
  small_image_untouched
    [((⟨50, 50, true, false, false, false⟩ : ImageState),
      (⟨true, DetectRaw.returns [], false, false⟩ : ProcEnv))]
    0 (by decide) (Or.inl (by decide))

/-- Claim C9: applying the suppression treatment twice in a row leaves the
element in exactly the same visible state as applying it once — the second
application short-circuits on the blurred marker and is a no-op. -/
theorem blurImage_idempotent (e : ImgElem) : blurImage (blurImage e) = blurImage e := by
  by_cases hb : e.blurMarker = true
  · have h1 : blurImage e = e := by rw [blurImage, if_pos hb]
    rw [h1]
    exact h1
  · have h1 : blurImage e =
        { blurMarker := true,
          savedFilter := some (if e.filter = "" then "none" else e.filter),
          filter := "blur(20px)",
          transition := "filter 0.3s ease",
          cursor := "pointer",
          title := "Click to temporarily unblur",
          toggleHandlers := e.toggleHandlers + 1 } := by
      rw [blurImage, if_neg hb]
    rw [h1]
    simp [blurImage]

end FaceBlur
